import Mathlib

/-!
Shallow embedding of the `peridot_hostbridge` module from
`nios2-sim-ip-peridot_hostbridge` (src/src/index.ts).

The embedding follows the TypeScript source byte-for-byte:

* `writeReg` embeds `_writeReg` (CSR write emulation);
* `recvSerialByte` embeds one byte of `_recvSerial` dispatch, together
  with `_recvPacket`, `_recvChannel` and `_recvCommand`;
* `processPacket` embeds `_processPacket`;
* `sendPacketBytes` embeds the encoder `_sendPacket`.

JavaScript number semantics are made explicit: `& 0xff` masks become
`%'/`&&&` on `Nat`, the signed I2C bit counter is an `Int` with sentinels
`-2`/`-1`, and out-of-range `Uint8Array` reads (which yield `undefined`,
coerced to 0 by the shift operators) become `List.getD _ _ 0`.
-/

namespace Hostbridge

/-- The fixed slave address `EEPROM_SLAVE_ADDR = 0b1010000` from the source. -/
def EEPROM_SLAVE_ADDR : Nat := 0b1010000

/-! ## Register file (`_writeReg`) -/

/-- State touched by the CSR write path (`_writeReg`).  Configuration-time
fields (`resetKey`, `flash_en`, `msg_en`) are fixed by `load`;
`irq` records the level of the `avsirq` interrupt sender. -/
structure RegState where
  resetKey : Nat
  flash_en : Bool
  msg_en : Bool
  led : Nat
  irqena : Bool
  ss : Bool
  message : Nat
  swi : Bool
  irq : Bool
  deriving Repr, DecidableEq

/-- Outcome of a `_writeReg` call: `ret = some b` is the JS return value,
`ret = none` means the call threw (`"Nios II reset by PERIDOT SWI"`);
`warned` records a `printWarn` call. -/
structure WriteOutcome where
  ret : Option Bool
  warned : Bool
  deriving Repr, DecidableEq

/-- The LED mask `ledMask = 0xf` from the source. -/
def ledMask : Nat := 0xf

/-- Embedding of `_writeReg(offset, value)`.  JS bitwise operators act on
`ToUint32/ToInt32` of the operand, hence the `value % 2^32` mask. -/
def writeReg (s : RegState) (offset value : Nat) : RegState × WriteOutcome :=
  let v := value % 4294967296
  match offset with
  | 0 | 1 | 2 | 3 =>
    -- Read only
    (s, ⟨some true, false⟩)
  | 4 =>
    let s := { s with led := v &&& ledMask }
    if v &&& 0x0100 ≠ 0 then
      -- Reset
      if s.resetKey ≠ 0 ∨ s.resetKey = v >>> 16 then
        (s, ⟨none, false⟩)          -- throw new Error("Nios II reset by PERIDOT SWI")
      else
        (s, ⟨some true, true⟩)      -- printWarn("Nios II reset requested with incorrect key")
    else
      (s, ⟨some true, false⟩)
  | 5 =>
    if s.flash_en then
      ({ s with irqena := v &&& 0x8000 ≠ 0, ss := v &&& 0x0100 ≠ 0 }, ⟨some true, false⟩)
    else
      (s, ⟨some true, false⟩)
  | 6 =>
    if s.msg_en then ({ s with message := v }, ⟨some true, false⟩)
    else (s, ⟨some true, false⟩)
  | 7 =>
    if s.msg_en then
      let swi := v &&& 0x0001 ≠ 0
      ({ s with swi := swi, irq := swi }, ⟨some true, false⟩)
    else
      (s, ⟨some true, false⟩)
  | _ => (s, ⟨some false, false⟩)

/-! ## Avalon-MM transaction processor (`_processPacket`) -/

/-- One access performed through the Avalon master `m1`. -/
inductive Access
  | w8 (addr val : Nat)
  | w32 (addr val : Nat)
  | r8 (addr size : Nat)
  | r32 (addr size : Nat)
  deriving Repr, DecidableEq

/-- Byte width of a single write access; for reads, the unit width of the
request (`read32` transfers words, `read8` single bytes). -/
def Access.width : Access → Nat
  | .w8 _ _ => 1
  | .w32 _ _ => 4
  | .r8 _ _ => 1
  | .r32 _ _ => 4

/-- The external Avalon master `m1` (supplied by the simulator framework):
`read32 addr n` / `read8 addr n` may return up to `n` bytes, or `none`
when no device is mapped (the source substitutes a single zero element). -/
structure Env where
  read32 : Nat → Nat → Option (List Nat)
  read8 : Nat → Nat → Option (List Nat)

/-- Byte read `packet.readUInt8(i)` (packets handed over are never empty,
so the out-of-range default is unreachable on the pipeline's calls). -/
def readUInt8 (pkt : List Nat) (i : Nat) : Nat := pkt.getD i 0

/-- Big-endian 16-bit read `packet.readUInt16BE(i)`. -/
def readUInt16BE (pkt : List Nat) (i : Nat) : Nat :=
  pkt.getD i 0 * 256 + pkt.getD (i+1) 0

/-- Big-endian 32-bit read `packet.readUInt32BE(i)`. -/
def readUInt32BE (pkt : List Nat) (i : Nat) : Nat :=
  pkt.getD i 0 * 16777216 + pkt.getD (i+1) 0 * 65536 +
    pkt.getD (i+2) 0 * 256 + pkt.getD (i+3) 0

/-- Little-endian 32-bit read `packet.readUInt32LE(i)`. -/
def readUInt32LE (pkt : List Nat) (i : Nat) : Nat :=
  pkt.getD i 0 + pkt.getD (i+1) 0 * 256 +
    pkt.getD (i+2) 0 * 65536 + pkt.getD (i+3) 0 * 16777216

/-- The `write()` recursion inside `_processPacket` (cases 0x00/0x04):
a do/while that performs the widest aligned access first.  `fuel` is an
upper bound on iterations; `size + 1` always suffices since each
iteration consumes at least one byte. -/
def writeLoop (pkt : List Nat) (incl : Bool) :
    Nat → Nat → Nat → Nat → List Access
  | 0, _, _, _ => []
  | fuel+1, addr, size, ofst =>
    if 4 ≤ size ∧ addr % 4 = 0 then
      Access.w32 addr (readUInt32LE pkt ofst) ::
        (if 0 < size - 4 then
          writeLoop pkt incl fuel (if incl then addr + 4 else addr) (size - 4) (ofst + 4)
        else [])
    else
      Access.w8 addr (readUInt8 pkt ofst) ::
        (if 0 < size - 1 then
          writeLoop pkt incl fuel (if incl then addr + 1 else addr) (size - 1) (ofst + 1)
        else [])

/-- The `read()` recursion inside `_processPacket` (cases 0x10/0x14).
The source never initialises `ofst` on the read path, so the
`resp.set(..., ofst)` offset is `undefined` (then `NaN`), which
`ToIntegerOrInfinity` coerces to 0 on every iteration: every chunk is
stored at offset 0 of the response buffer.  `resp` starts as
`Buffer.allocUnsafe(size)` (uninitialised; modelled as zeros). -/
def readLoop (env : Env) (incl : Bool) :
    Nat → Nat → Nat → List Nat → List Access × List Nat
  | 0, _, _, resp => ([], resp)
  | fuel+1, addr, size, resp =>
    let (acc, chunk) :=
      if 4 ≤ size ∧ addr % 4 = 0 then
        (Access.r32 addr (size - size % 4),
          (env.read32 addr (size - size % 4)).getD [0, 0, 0, 0])
      else
        (Access.r8 addr size, (env.read8 addr size).getD [0])
    let len := min chunk.length size
    let resp := chunk.take len ++ resp.drop len
    let size := size - len
    if 0 < size then
      let (accs, r) := readLoop env incl fuel (if incl then addr + len else addr) size resp
      (acc :: accs, r)
    else ([acc], resp)

/-- Embedding of `_processPacket`: returns the Avalon accesses performed
and the `_sendPacket(channel, data)` calls made (in order). -/
def processPacket (env : Env) (pkt : List Nat) : List Access × List (Nat × List Nat) :=
  let type := readUInt8 pkt 0
  if type = 0x00 ∨ type = 0x04 then
    let incl := type = 0x04
    let addr := readUInt32BE pkt 4
    let size := readUInt16BE pkt 2
    let resp := [(type ^^^ 0x80) % 256, 0, (size >>> 8) &&& 0xff, size &&& 0xff]
    (writeLoop pkt incl (size + 1) addr size 8, [(0, resp)])
  else if type = 0x10 ∨ type = 0x14 then
    let incl := type = 0x14
    let addr := readUInt32BE pkt 4
    let size := readUInt16BE pkt 2
    let (accs, resp) := readLoop env incl (size + 1) addr size (List.replicate size 0)
    (accs, [(0, resp)])
  else
    -- case 0x7f (no transaction) and all unsupported codes
    ([], [(0, [0xff, 0x00, 0x00, 0x00])])

/-! ## Packet framer (`_sendPacket`) -/

/-- The four packet-layer control values recognised by the deframer and
escaped by the framer. -/
def isCtrl (b : Nat) : Bool := b = 0x7a ∨ b = 0x7b ∨ b = 0x7c ∨ b = 0x7d

/-- Wire encoding of one payload byte inside `_sendPacket`. -/
def encodeByte (b : Nat) : List Nat :=
  if isCtrl b then [0x7d, b ^^^ 0x20] else [b]

/-- Wire encoding of the payload: the EOP marker `0x7b` is emitted just
before the final payload byte. -/
def encodeBody : List Nat → List Nat
  | [] => []
  | [b] => 0x7b :: encodeByte (b % 256)
  | b :: rest => encodeByte (b % 256) ++ encodeBody rest

/-- Embedding of `_sendPacket(channel, data)`: the bytes written to the
serial port (channel prefix, channel, SOP, encoded body). -/
def sendPacketBytes (channel : Nat) (data : List Nat) : List Nat :=
  0x7c :: channel % 256 :: 0x7a :: encodeBody data

/-! ## Byte-stream receive machine
(`_recvSerial`, `_recvPacket`, `_recvChannel`, `_recvCommand`) -/

/-- The possible values of the `_receiver` field (`null` = `none`). -/
inductive Receiver
  | packet
  | channel
  | command
  deriving Repr, DecidableEq

/-- An open per-channel packet buffer (`_packets[ch]`, a JS array with an
`eop` expando property). -/
structure PacketBuf where
  data : List Nat
  eop : Bool
  deriving Repr, DecidableEq

/-- Full mutable state of the receive pipeline, plus observable traces:
`serialOut` records the single status bytes written by `_recvCommand`,
`sent` the `_sendPacket(channel, data)` calls, `accesses` the Avalon
accesses, `completed` the `(channel, packet)` pairs handed to
`_processPacket`, `decoded` the bytes seen by `_recvPacket` after its
0x3d-escape stage, and `fatal` whether a throw escaped the chain
(after which no further byte is processed). -/
structure SerState where
  receiver : Option Receiver
  escaped3 : Bool
  escaped7 : Bool
  channel : Nat
  packets : Nat → Option PacketBuf
  lastCommand : Nat
  i2cByte : Nat
  i2cDrive : Nat
  i2cState : Int
  i2cWrite : Bool
  eepAddr : Nat
  eepData : List Nat
  serialOut : List Nat
  sent : List (Nat × List Nat)
  accesses : List Access
  completed : List (Nat × List Nat)
  decoded : List Nat
  fatal : Bool

/-- Rising clock edge inside `_recvCommand`'s I2C emulation: sample the
data bit into the shift register. -/
def i2cRise (s : SerState) (b : Nat) : SerState :=
  { s with i2cByte :=
      ((s.i2cByte <<< 1) ||| (if b &&& 0x20 ≠ 0 then 1 else 0)) &&& 0xff }

/-- Falling clock edge inside `_recvCommand`'s I2C emulation: advance
the bit counter and update the bus drive / EEPROM cursor. -/
def i2cFall (s : SerState) : SerState :=
  let st : Int := s.i2cState + 1
  if st < 8 then
    { s with i2cState := st, i2cDrive := 0x30 }
  else if st = 8 then
    if s.i2cByte >>> 1 = EEPROM_SLAVE_ADDR then
      { s with i2cState := st, i2cDrive := 0x10,    -- ACK
               i2cWrite := s.i2cByte &&& 1 = 0 }
    else
      { s with i2cState := -2, i2cDrive := 0x30,    -- NACK, ignore transaction
               i2cWrite := s.i2cByte &&& 1 = 0 }
  else if s.i2cWrite then
    -- Write (Master -> Slave)
    if st % 9 = 8 then
      if st < 18 then
        { s with i2cState := st, eepAddr := s.i2cByte, i2cDrive := 0x10 }  -- ACK
      else
        -- Write protected
        { s with i2cState := st, i2cDrive := 0x10 }  -- ACK
    else
      { s with i2cState := st, i2cDrive := 0x30 }    -- Release
  else
    -- Read (Slave -> Master)
    let bit := st % 9
    if bit = 8 then
      { s with i2cState := st, eepAddr := s.eepAddr + 1, i2cDrive := 0x30 }
    else
      { s with i2cState := st, i2cDrive :=
          0x10 ||| ((((s.eepData.getD s.eepAddr 0) >>> (7 - bit).toNat) &&& 1) <<< 5) }

/-- Data-line transition while the clock is held high: STOP on a rising
data edge, START on a falling one. -/
def i2cData (s : SerState) (b : Nat) : SerState :=
  if b &&& 0x20 ≠ 0 then
    { s with i2cState := -2, i2cDrive := 0x30 }        -- rise edge => STOP
  else
    { s with i2cState := -1, i2cByte := 0, i2cDrive := 0x30 }  -- fall edge => START

/-- Embedding of `_recvCommand` (one configuration-command byte). -/
def recvCommandB (s : SerState) (b : Nat) : SerState :=
  if b &&& 0x01 = 0 then
    -- throw new Error("nCONFIG asserted by hostbridge")
    { s with fatal := true }
  else
    let i2cDriveOld := s.i2cDrive
    let s :=
      if b &&& 0x80 = 0 then
        -- I2C emulation
        let change := (b ^^^ s.lastCommand) &&& 0x30
        if change &&& 0x10 ≠ 0 then
          -- clock change
          if b &&& 0x10 ≠ 0 then i2cRise s b else i2cFall s
        else if change &&& 0x20 ≠ 0 ∧ b &&& 0x10 ≠ 0 then
          i2cData s b
        else s
      else s
    { s with
      serialOut := s.serialOut ++ [0x07 ||| (s.lastCommand &&& i2cDriveOld)],
      lastCommand := b,
      receiver := none }

/-- Embedding of `_recvChannel`. -/
def recvChannelB (s : SerState) (b : Nat) : SerState :=
  { s with channel := b, receiver := none }

/-- Embedding of `_recvPacket` (one byte of the Avalon-ST deframer),
handing completed packets to `processPacket`. -/
def recvPacketB (env : Env) (s : SerState) (b : Nat) : SerState :=
  if b = 0x3d then
    { s with escaped3 := true }
  else
    let b := if s.escaped3 then b ^^^ 0x20 else b
    let s := { s with escaped3 := false, decoded := s.decoded ++ [b] }
    if b = 0x7c then
      -- Channel prefix
      { s with receiver := some .channel }
    else if b = 0x7a then
      -- SOP
      { s with packets := Function.update s.packets s.channel (some ⟨[], false⟩) }
    else if b = 0x7b then
      -- EOP
      match s.packets s.channel with
      | some buf =>
        { s with packets := Function.update s.packets s.channel (some { buf with eop := true }) }
      | none => s
    else if b = 0x7d then
      -- Escape
      { s with escaped7 := true }
    else
      let b := if s.escaped7 then b ^^^ 0x20 else b
      let s := { s with escaped7 := false }
      match s.packets s.channel with
      | some buf =>
        let buf := { buf with data := buf.data ++ [b] }
        if buf.eop then
          let pktBytes := buf.data.map (· % 256)    -- Buffer.from(packet)
          let pr := processPacket env pktBytes
          { s with packets := Function.update s.packets s.channel none,
                   completed := s.completed ++ [(s.channel, pktBytes)],
                   accesses := s.accesses ++ pr.1,
                   sent := s.sent ++ pr.2 }
        else
          { s with packets := Function.update s.packets s.channel (some buf) }
      | none => s

/-- Embedding of the `_recvSerial` per-byte dispatch: the command prefix
0x3a is checked on the raw byte before any receiver runs; an unset
receiver defaults to the packet deframer.  A `fatal` state absorbs all
further bytes (the rejected promise chain never runs them). -/
def recvByte (env : Env) (s : SerState) (b : Nat) : SerState :=
  if s.fatal then s
  else if b = 0x3a then
    -- Command byte for PERIDOT
    { s with receiver := some .command }
  else
    match s.receiver with
    | none => recvPacketB env { s with receiver := some .packet } b
    | some .packet => recvPacketB env s b
    | some .channel => recvChannelB s b
    | some .command => recvCommandB s b

/-- Process a whole chunk of serial input. -/
def recvBytes (env : Env) (s : SerState) (l : List Nat) : SerState :=
  l.foldl (recvByte env) s

/-- Default board ID `"J72X"` as bytes. -/
def defaultBid : List Nat := [0x4a, 0x37, 0x32, 0x58]

/-- Default serial ID `"SIMULA-TDHOST-BRIDGE"` with hyphens stripped
(`"SIMULATDHOSTBRIDGE"`, 18 characters) as bytes. -/
def defaultSid : List Nat :=
  [0x53, 0x49, 0x4d, 0x55, 0x4c, 0x41, 0x54, 0x44, 0x48,
   0x4f, 0x53, 0x54, 0x42, 0x52, 0x49, 0x44, 0x47, 0x45]

/-- The 256-byte EEPROM image built by `load`: fixed 4-byte header,
board ID at 4..7, serial ID at 8..25, zero filler. -/
def eepromImage : List Nat :=
  [0x4a, 0x37, 0x57, 0x02] ++ defaultBid ++ defaultSid ++ List.replicate 230 0

/-- Receive-pipeline state right after `load` (with default options):
`_receiver` unset, `_lastCommand = 0x39`, `_i2cDrive = 0x30`,
`_i2cState = -2`, `_eepAddr = 0`; the JS fields left `undefined`
(`_i2cByte`, `_i2cWrite`, escape flags) behave as 0/false at first use. -/
def initState : SerState where
  receiver := none
  escaped3 := false
  escaped7 := false
  channel := 0
  packets := fun _ => none
  lastCommand := 0x39
  i2cByte := 0
  i2cDrive := 0x30
  i2cState := -2
  i2cWrite := false
  eepAddr := 0
  eepData := eepromImage
  serialOut := []
  sent := []
  accesses := []
  completed := []
  decoded := []
  fatal := false

/-- Environment with no mapped Avalon device (reads zero-fill). -/
def env0 : Env := ⟨fun _ _ => none, fun _ _ => none⟩

/-! ## Concrete inputs used by the theorems -/

/-- A register state with every feature off and a zero reset key. -/
def regState0 : RegState :=
  ⟨0, false, false, 0, false, false, 0, false, false⟩

/-- Command bytes for one I2C bit: clock rise with data `b` (sample),
then clock fall with data `b`.  Bit 0 is kept asserted (required) and
bit 7 clear (I2C emulation selected). -/
def i2cBit (b : Bool) : List Nat :=
  [0x11 ||| (if b then 0x20 else 0), 0x01 ||| (if b then 0x20 else 0)]

/-- Command bytes clocking the 8 bits of `v`, MSB first. -/
def i2cByteCmds (v : Nat) : List Nat :=
  (List.range 8).flatMap (fun i => i2cBit (v.testBit (7 - i)))

/-- One acknowledge clock cycle with the master releasing the data line. -/
def i2cAck : List Nat := [0x31, 0x21]

/-- An I2C transaction: START, address byte 0xA0 (slave 0b1010000,
write), data byte 0xFF (sets the EEPROM address cursor to 255),
repeated START, address byte 0xA1 (read), then one full read byte
(8 clock cycles after the ACK slot, whose final falling edge advances
the cursor past 255). -/
def c6cmds : List Nat :=
  [0x11, 0x01] ++ i2cByteCmds 0xA0 ++ i2cAck ++ i2cByteCmds 0xFF ++ i2cAck ++
  [0x31, 0x11, 0x01] ++ i2cByteCmds 0xA1 ++ i2cAck ++
  (List.replicate 8 i2cAck).flatten

/-- The serial bytes carrying `c6cmds`: each command byte is preceded by
the 0x3a command prefix. -/
def c6input : List Nat := c6cmds.flatMap (fun c => [0x3a, c])

/-! ## C1 — register-4 reset key check -/

/-- C1: the claim (reset with a non-matching key is only a recoverable
warning) is contradicted by the code: `_writeReg` throws the fatal
`"Nios II reset by PERIDOT SWI"` error whenever the configured key is
nonzero — here key `0xDEAD`, written value `0x0100` (reset bit set,
high 16 bits `0x0000` ≠ key), yet the outcome is the throw (`ret =
none`) and no warning.  The `resetKey ≠ 0 ∨ resetKey = high16` test in
the source makes the "incorrect key" warning unreachable for every
nonzero key, so the warning branch documents the intent and the `≠` is
a slip (the spec itself flags it, §9). -/
theorem c1_reset_with_wrong_key_is_fatal_in_code :
    (writeReg { regState0 with resetKey := 0xDEAD } 4 0x0100).2 =
      ⟨none, false⟩ ∧
    (writeReg { regState0 with resetKey := 0 } 4 0x00050100).2 =
      ⟨some true, true⟩ := by
  decide

/-! ## C2 — response channel -/

/-- C2 counterexample: a `[0x7f]` request received on channel 1 is
answered on channel 0, not on channel 1 as the claim states. -/
theorem c2_response_not_on_request_channel :
    (recvBytes env0 initState [0x7c, 1, 0x7a, 0x7b, 0x7f]).completed =
      [(1, [0x7f])] ∧
    (recvBytes env0 initState [0x7c, 1, 0x7a, 0x7b, 0x7f]).sent =
      [(0, [0xff, 0, 0, 0])] ∧
    (recvBytes env0 initState [0x7c, 1, 0x7a, 0x7b, 0x7f]).sent ≠
      [(1, [0xff, 0, 0, 0])] := by
  decide

/-- C2 amended: `_processPacket` always emits exactly one response, and
always on channel 0, whatever the packet and the request channel. -/
theorem c2_amended_response_always_channel0 (env : Env) (pkt : List Nat) :
    ((processPacket env pkt).2).map Prod.fst = [0] := by
  simp only [processPacket]
  split
  · rfl
  · split
    · dsimp only
      rcases readLoop env _ _ _ _ _ with ⟨accs, r⟩
      rfl
    · rfl

/-! ## C3 — write splitting at address 0x1000 -/

/-- C3 counterexample: for the claim's own input (type 0x04, address
0x1000, 6 payload bytes) the access trace is one 4-byte access followed
by two 1-byte accesses — not 1-byte, 4-byte, 1-byte as claimed
(0x1000 is already 4-byte aligned). -/
theorem c3_access_order_not_1_4_1 :
    ((processPacket env0 [0x04, 0, 0, 6, 0, 0, 0x10, 0, 1, 2, 3, 4, 5, 6]).1).map
        Access.width = [4, 1, 1] ∧
    ((processPacket env0 [0x04, 0, 0, 6, 0, 0, 0x10, 0, 1, 2, 3, 4, 5, 6]).1).map
        Access.width ≠ [1, 4, 1] := by
  decide

/-- C3 amended: a type-0x04 write to 0x1000 with any 6 payload bytes
performs exactly one 4-byte access (at 0x1000), then two 1-byte
accesses (at 0x1004 and 0x1005), and is acknowledged with the 4-byte
packet `[0x84, 0x00, 0x00, 0x06]` (on channel 0). -/
theorem c3_amended_write_0x1000_splits_4_1_1 (a b c d e f : Nat) :
    processPacket env0 [0x04, 0, 0, 6, 0, 0, 0x10, 0, a, b, c, d, e, f] =
      ([Access.w32 0x1000 (a + b * 256 + c * 65536 + d * 16777216),
        Access.w8 0x1004 e, Access.w8 0x1005 f],
       [(0, [0x84, 0, 0, 6])]) := by
  simp [processPacket, writeLoop, readUInt8, readUInt16BE, readUInt32BE, readUInt32LE]
  decide

/-! ## C10 — LED update precedes the reset check -/

/-- C10: a register-4 write stores the low nibble into the LED field
before the reset-request check, so the LED is updated even when the
write throws the fatal reset error: the write is not atomic with
respect to that error. -/
theorem c10_led_updated_even_on_fatal_reset (s : RegState) (v : Nat)
    (h : (writeReg s 4 v).2.ret = none) :
    (writeReg s 4 v).1.led = (v % 4294967296) &&& ledMask := by
  unfold writeReg
  dsimp only
  split
  · split <;> rfl
  · rfl

/-- C10 witness: with key 1 and written value 0x0105, the write throws
and the LED has nevertheless been set to 5. -/
theorem c10_led_updated_even_on_fatal_reset_witness :
    (writeReg { regState0 with resetKey := 1 } 4 0x0105).2.ret = none ∧
    (writeReg { regState0 with resetKey := 1 } 4 0x0105).1.led =
      (0x0105 % 4294967296) &&& ledMask := by
  refine ⟨by decide, c10_led_updated_even_on_fatal_reset _ _ (by decide)⟩

end Hostbridge
namespace Hostbridge

lemma recvCommandB_eepData (s : SerState) (b : Nat) :
    (recvCommandB s b).eepData = s.eepData := by
  simp only [recvCommandB, i2cRise, i2cFall, i2cData]
  repeat' split
  all_goals rfl

lemma recvCommandB_receiver (s : SerState) (b : Nat) (hb : ¬ b &&& 0x01 = 0) :
    (recvCommandB s b).receiver = none := by
  unfold recvCommandB
  rw [if_neg hb]

lemma recvCommandB_fatal (s : SerState) (b : Nat) (hb : ¬ b &&& 0x01 = 0) :
    (recvCommandB s b).fatal = s.fatal := by
  simp only [recvCommandB, i2cRise, i2cFall, i2cData]
  rw [if_neg hb]
  repeat' split
  all_goals rfl

lemma recvCommandB_eq_fall (s : SerState) (b : Nat)
    (hb : ¬ b &&& 0x01 = 0) (h80 : b &&& 0x80 = 0)
    (hclk : ¬ ((b ^^^ s.lastCommand) &&& 0x30) &&& 0x10 = 0)
    (hfall : b &&& 0x10 = 0) :
    recvCommandB s b =
      { i2cFall s with
        serialOut := (i2cFall s).serialOut ++ [0x07 ||| ((i2cFall s).lastCommand &&& s.i2cDrive)],
        lastCommand := b,
        receiver := none } := by
  unfold recvCommandB
  rw [if_neg hb]
  simp only
  rw [if_pos h80, if_pos hclk, if_neg (by simp [hfall])]

/-- C4 counterexample: with a channel-number receiver pending (after a
0x7c channel prefix), a command prefix 0x3a plus command byte 0x81 does
not restore that receiver: the following byte 0x05 goes to the packet
deframer and the channel stays 0 instead of becoming 5. -/
theorem c4_receiver_not_restored :
    (recvBytes env0 initState [0x7c, 0x3a, 0x81, 0x05]).channel = 0 ∧
    (recvBytes env0 initState [0x7c, 0x3a, 0x81, 0x05]).receiver =
      some Receiver.packet ∧
    (recvBytes env0 initState [0x7c, 0x3a, 0x81, 0x05]).channel ≠ 5 := by
  decide

/-- C4 (amended): after the command handler consumes its one byte, the
`_receiver` field is cleared, so the next byte (unless it is another
0x3a prefix) is always handled by the packet deframer — control never
returns to the machine that was active before the prefix. -/
theorem c4_amended_command_reverts_to_deframer (env : Env) (s : SerState) (b c : Nat)
    (hf : s.fatal = false) (hr : s.receiver = some .command)
    (hb : ¬ b &&& 0x01 = 0) (hc : c ≠ 0x3a) :
    (recvByte env s b).receiver = none ∧
    recvByte env (recvByte env s b) c =
      recvPacketB env { recvByte env s b with receiver := some .packet } c := by
  have hb3a : b ≠ 0x3a := by intro h; subst h; exact hb (by decide)
  have h1 : recvByte env s b = recvCommandB s b := by
    unfold recvByte
    rw [hf, if_neg (by simp), if_neg hb3a, hr]
  have hrec := recvCommandB_receiver s b hb
  have hfat := recvCommandB_fatal s b hb
  refine ⟨h1 ▸ hrec, ?_⟩
  rw [h1]
  unfold recvByte
  rw [hfat, hf, if_neg (by simp), if_neg hc, hrec]
  simp [hfat, hf]

/-- C8: on the falling clock edge at bit counter 8, a shift register
whose upper 7 bits equal the fixed slave address 0b1010000 gets ACK
(drive 0x10) and the direction latched from the low bit; any other
address gets NACK (drive 0x30, release) with the counter reset to the
idle sentinel -2; in both cases no error is signalled upward. -/
theorem c8_address_ack_slot (s : SerState) (b : Nat)
    (hb : ¬ b &&& 0x01 = 0) (h80 : b &&& 0x80 = 0)
    (hclk : ¬ ((b ^^^ s.lastCommand) &&& 0x30) &&& 0x10 = 0)
    (hfall : b &&& 0x10 = 0) (hst : s.i2cState = 7) :
    (recvCommandB s b).fatal = s.fatal ∧
    (s.i2cByte >>> 1 = EEPROM_SLAVE_ADDR →
      (recvCommandB s b).i2cDrive = 0x10 ∧
      ((recvCommandB s b).i2cWrite = true ↔ s.i2cByte &&& 1 = 0) ∧
      (recvCommandB s b).i2cState = 8) ∧
    (s.i2cByte >>> 1 ≠ EEPROM_SLAVE_ADDR →
      (recvCommandB s b).i2cDrive = 0x30 ∧
      (recvCommandB s b).i2cState = -2 ∧
      ((recvCommandB s b).i2cWrite = true ↔ s.i2cByte &&& 1 = 0)) := by
  rw [recvCommandB_eq_fall s b hb h80 hclk hfall]
  simp only [i2cFall, hst]
  norm_num
  by_cases haddr : s.i2cByte >>> 1 = EEPROM_SLAVE_ADDR
  · simp [haddr]
  · simp [haddr]

end Hostbridge
namespace Hostbridge

lemma recvPacketB_eepData (env : Env) (s : SerState) (b : Nat) :
    (recvPacketB env s b).eepData = s.eepData := by
  simp only [recvPacketB]
  repeat' split
  all_goals rfl

lemma recvByte_eepData (env : Env) (s : SerState) (b : Nat) :
    (recvByte env s b).eepData = s.eepData := by
  unfold recvByte
  repeat' split
  all_goals first
    | rfl
    | exact recvPacketB_eepData _ _ _
    | exact recvCommandB_eepData _ _

/-- C9: the EEPROM image is immutable — processing any byte sequence
leaves `eepData` unchanged, and a data-byte group written by the master
after the address byte (counter at least 18 at its ACK slot) is ACKed
(drive 0x10) while storing nothing (image and cursor unchanged). -/
theorem c9_eeprom_immutable :
    (∀ (env : Env) (s : SerState) (l : List Nat),
      (recvBytes env s l).eepData = s.eepData) ∧
    (∀ (s : SerState) (b : Nat),
      ¬ b &&& 0x01 = 0 → b &&& 0x80 = 0 →
      ¬ ((b ^^^ s.lastCommand) &&& 0x30) &&& 0x10 = 0 → b &&& 0x10 = 0 →
      s.i2cWrite = true → (s.i2cState + 1) % 9 = 8 → 18 ≤ s.i2cState + 1 →
      (recvCommandB s b).i2cDrive = 0x10 ∧
      (recvCommandB s b).eepAddr = s.eepAddr ∧
      (recvCommandB s b).eepData = s.eepData) := by
  constructor
  · intro env s l
    induction l generalizing s with
    | nil => rfl
    | cons a l ih =>
      exact (ih (recvByte env s a)).trans (recvByte_eepData env s a)
  · intro s b hb h80 hclk hfall hw hmod hge
    rw [recvCommandB_eq_fall s b hb h80 hclk hfall]
    simp only [i2cFall]
    rw [if_neg (by omega), if_neg (by omega), if_pos hw, if_pos hmod, if_neg (by omega)]
    exact ⟨rfl, rfl, rfl⟩

/-- C6 (amended): the cursor latch at the second write group (counter
17) stores the 8-bit shift register, hence a value below 256; but the
advance at the end of a read byte is a plain increment with no modulo,
and once the cursor is past the image, read bits come from the
out-of-range default 0 (drive 0x10), not from the wrapped address. -/
theorem c6_amended_cursor_latch_no_wrap :
    (∀ (s : SerState) (b : Nat),
      ¬ b &&& 0x01 = 0 → b &&& 0x80 = 0 →
      ¬ ((b ^^^ s.lastCommand) &&& 0x30) &&& 0x10 = 0 → b &&& 0x10 = 0 →
      s.i2cState = 16 → s.i2cWrite = true → s.i2cByte < 256 →
      (recvCommandB s b).eepAddr = s.i2cByte ∧ (recvCommandB s b).eepAddr < 256) ∧
    (∀ (s : SerState) (b : Nat),
      ¬ b &&& 0x01 = 0 → b &&& 0x80 = 0 →
      ¬ ((b ^^^ s.lastCommand) &&& 0x30) &&& 0x10 = 0 → b &&& 0x10 = 0 →
      s.i2cWrite = false → 8 < s.i2cState + 1 → (s.i2cState + 1) % 9 = 8 →
      (recvCommandB s b).eepAddr = s.eepAddr + 1) ∧
    (∀ (s : SerState) (b : Nat),
      ¬ b &&& 0x01 = 0 → b &&& 0x80 = 0 →
      ¬ ((b ^^^ s.lastCommand) &&& 0x30) &&& 0x10 = 0 → b &&& 0x10 = 0 →
      s.i2cWrite = false → 8 < s.i2cState + 1 → ¬ (s.i2cState + 1) % 9 = 8 →
      s.eepData.length ≤ s.eepAddr →
      (recvCommandB s b).i2cDrive = 0x10) := by
  refine ⟨?_, ?_, ?_⟩
  · intro s b hb h80 hclk hfall hst hw hlt
    rw [recvCommandB_eq_fall s b hb h80 hclk hfall]
    simp only [i2cFall, hst]
    norm_num
    rw [if_pos hw]
    exact ⟨rfl, hlt⟩
  · intro s b hb h80 hclk hfall hw hgt hmod
    rw [recvCommandB_eq_fall s b hb h80 hclk hfall]
    simp only [i2cFall]
    rw [if_neg (by omega), if_neg (by omega), if_neg (by simp [hw]), if_pos hmod]
  · intro s b hb h80 hclk hfall hw hgt hmod hlen
    rw [recvCommandB_eq_fall s b hb h80 hclk hfall]
    simp only [i2cFall]
    rw [if_neg (by omega), if_neg (by omega), if_neg (by simp [hw]), if_neg hmod]
    simp [List.getElem?_eq_none hlen]

set_option maxRecDepth 100000 in
/-- C6 counterexample: a legitimate I2C dialogue (write address 0xFF,
then read one byte sequentially) leaves the cursor at 256, outside
0..255 — the claimed modulo-256 wrap does not happen. -/
theorem c6_cursor_reaches_256 : (recvBytes env0 initState c6input).eepAddr = 256 ∧
    ¬ (recvBytes env0 initState c6input).eepAddr ≤ 255 := by
  decide

end Hostbridge
namespace Hostbridge

/-- C5 counterexample: in the escape pair (0x3d, X) with X = 0x3a, the
second byte is intercepted as the command prefix before the deframer
ever sees it, so the decoded stream never contains 0x1a (= X XOR 0x20)
and the escape flag is left dangling. -/
theorem c5_escaped_command_prefix_lost :
    (recvBytes env0 initState [0x7c, 0, 0x7a, 0x3d, 0x3a, 0x81]).decoded = [0x7c, 0x7a] ∧
    0x1a ∉ (recvBytes env0 initState [0x7c, 0, 0x7a, 0x3d, 0x3a, 0x81]).decoded := by
  decide

/-- C5 (amended): when the packet deframer is (or becomes) the active
receiver with no pending escape, an escape pair (0x3d, X) with X
neither the command prefix 0x3a nor the escape marker 0x3d delivers
exactly the decoded byte X XOR 0x20; in particular 0x3a is carried as
data by transmitting (0x3d, 0x1a). -/
theorem c5_amended_escape_decodes (env : Env) (s : SerState) (x : Nat)
    (hf : s.fatal = false)
    (hr : s.receiver = none ∨ s.receiver = some .packet)
    (he : s.escaped3 = false)
    (hx1 : x ≠ 0x3a) (hx2 : x ≠ 0x3d) :
    (recvBytes env s [0x3d, x]).decoded = s.decoded ++ [x ^^^ 0x20] := by
  have key : ∀ t : SerState, t.fatal = false → t.receiver = some .packet →
      t.escaped3 = true → t.decoded = s.decoded →
      (recvByte env t x).decoded = s.decoded ++ [x ^^^ 0x20] := by
    intro t tf tr te td
    unfold recvByte
    rw [tf, if_neg Bool.false_ne_true, if_neg hx1, tr]
    simp only [recvPacketB]
    rw [if_neg hx2, te]
    simp only [if_true]
    rw [← td]
    repeat' split
    all_goals rfl
  show (recvByte env (recvByte env s 0x3d) x).decoded = s.decoded ++ [x ^^^ 0x20]
  rcases hr with hr | hr
  · have h0 : recvByte env s 0x3d =
        { s with receiver := some .packet, escaped3 := true } := by
      unfold recvByte
      rw [hf, if_neg Bool.false_ne_true, if_neg (by decide), hr]
      rfl
    rw [h0]
    exact key _ hf rfl rfl rfl
  · have h0 : recvByte env s 0x3d = { s with escaped3 := true } := by
      unfold recvByte
      rw [hf, if_neg Bool.false_ne_true, if_neg (by decide), hr]
      dsimp only
      simp [recvPacketB, hr, hf]
    rw [h0]
    exact key _ hf hr rfl rfl

end Hostbridge
namespace Hostbridge

lemma recvByte_packet (env : Env) (s : SerState) (b : Nat)
    (hf : s.fatal = false) (hrv : s.receiver = some Receiver.packet)
    (h3a : b ≠ 0x3a) :
    recvByte env s b = recvPacketB env s b := by
  unfold recvByte
  rw [hf, if_neg Bool.false_ne_true, if_neg h3a, hrv]

/-- Deframer invariant while a framed packet is being delivered:
packet mode, outer escape resolved, inner escape flag `e7`, an open
buffer `acc` (EOP-pending flag `eop`) on channel `ch`, `done` already
completed. -/
def DeframeInv (s : SerState) (ch : Nat) (acc : List Nat)
    (done : List (Nat × List Nat)) (e7 eop : Bool) : Prop :=
  s.fatal = false ∧ s.receiver = some Receiver.packet ∧ s.escaped3 = false ∧
  s.escaped7 = e7 ∧ s.channel = ch ∧ s.packets ch = some ⟨acc, eop⟩ ∧
  s.completed = done

lemma esc_step (env : Env) {s : SerState} {ch : Nat} {acc : List Nat}
    {done : List (Nat × List Nat)} {eop : Bool}
    (h : DeframeInv s ch acc done false eop) :
    DeframeInv (recvByte env s 0x7d) ch acc done true eop := by
  obtain ⟨hf, hrv, he3, he7, hch, hp, hc⟩ := h
  rw [recvByte_packet env s 0x7d hf hrv (by decide)]
  simp only [recvPacketB]
  rw [if_neg (by decide : (0x7d : Nat) ≠ 0x3d), he3]
  simp only [Bool.false_eq_true, if_false]
  norm_num
  exact ⟨hf, hrv, rfl, rfl, hch, hp, hc⟩

lemma eop_step (env : Env) {s : SerState} {ch : Nat} {acc : List Nat}
    {done : List (Nat × List Nat)}
    (h : DeframeInv s ch acc done false false) :
    DeframeInv (recvByte env s 0x7b) ch acc done false true := by
  obtain ⟨hf, hrv, he3, he7, hch, hp, hc⟩ := h
  rw [recvByte_packet env s 0x7b hf hrv (by decide)]
  simp only [recvPacketB]
  rw [if_neg (by decide : (0x7b : Nat) ≠ 0x3d), he3]
  simp only [Bool.false_eq_true, if_false]
  norm_num
  rw [hch, hp]
  exact ⟨hf, hrv, rfl, he7, rfl, by simp, hc⟩

lemma push_step (env : Env) {s : SerState} {ch : Nat} {acc : List Nat}
    {done : List (Nat × List Nat)} {e7 : Bool} (v : Nat)
    (h3a : v ≠ 0x3a) (h3d : v ≠ 0x3d) (h7a : v ≠ 0x7a) (h7b : v ≠ 0x7b)
    (h7c : v ≠ 0x7c) (h7d : v ≠ 0x7d)
    (h : DeframeInv s ch acc done e7 false) :
    DeframeInv (recvByte env s v) ch
      (acc ++ [if e7 then v ^^^ 0x20 else v]) done false false := by
  obtain ⟨hf, hrv, he3, he7, hch, hp, hc⟩ := h
  rw [recvByte_packet env s v hf hrv h3a]
  simp only [recvPacketB]
  rw [if_neg h3d, he3]
  simp only [Bool.false_eq_true, if_false]
  rw [if_neg h7c, if_neg h7a, if_neg h7b, if_neg h7d, he7]
  rw [hch, hp]
  cases e7
  · exact ⟨hf, hrv, rfl, rfl, rfl, by simp, hc⟩
  · exact ⟨hf, hrv, rfl, rfl, rfl, by simp, hc⟩

lemma complete_step (env : Env) {s : SerState} {ch : Nat} {acc : List Nat}
    {done : List (Nat × List Nat)} {e7 : Bool} (v : Nat)
    (h3a : v ≠ 0x3a) (h3d : v ≠ 0x3d) (h7a : v ≠ 0x7a) (h7b : v ≠ 0x7b)
    (h7c : v ≠ 0x7c) (h7d : v ≠ 0x7d)
    (h : DeframeInv s ch acc done e7 true) :
    (recvByte env s v).completed =
      done ++ [(ch, (acc ++ [if e7 then v ^^^ 0x20 else v]).map (· % 256))] := by
  obtain ⟨hf, hrv, he3, he7, hch, hp, hc⟩ := h
  rw [recvByte_packet env s v hf hrv h3a]
  simp only [recvPacketB]
  rw [if_neg h3d, he3]
  simp only [Bool.false_eq_true, if_false]
  rw [if_neg h7c, if_neg h7a, if_neg h7b, if_neg h7d, he7]
  rw [hch, hp]
  cases e7
  · simp [hc]
  · simp [hc]

end Hostbridge
namespace Hostbridge

lemma map_mod256 (l : List Nat) (h : ∀ b ∈ l, b < 256) :
    l.map (· % 256) = l := by
  induction l with
  | nil => rfl
  | cons a l ih =>
    simp [Nat.mod_eq_of_lt (h a (by simp)), ih (fun b hb => h b (by simp [hb]))]

lemma run_encodeByte (env : Env) {s : SerState} {ch : Nat} {acc : List Nat}
    {done : List (Nat × List Nat)} (b : Nat)
    (hb : b < 256) (h3a : b ≠ 0x3a) (h3d : b ≠ 0x3d)
    (h : DeframeInv s ch acc done false false) :
    DeframeInv (recvBytes env s (encodeByte b)) ch (acc ++ [b]) done false false := by
  by_cases hctrl : isCtrl b = true
  · have hcases : b = 0x7a ∨ b = 0x7b ∨ b = 0x7c ∨ b = 0x7d := by
      simpa [isCtrl] using hctrl
    rw [encodeByte, if_pos hctrl]
    have h1 := esc_step env h
    have c1 : b ^^^ 0x20 ≠ 0x3a := by rcases hcases with rfl | rfl | rfl | rfl <;> decide
    have c2 : b ^^^ 0x20 ≠ 0x3d := by rcases hcases with rfl | rfl | rfl | rfl <;> decide
    have c3 : b ^^^ 0x20 ≠ 0x7a := by rcases hcases with rfl | rfl | rfl | rfl <;> decide
    have c4 : b ^^^ 0x20 ≠ 0x7b := by rcases hcases with rfl | rfl | rfl | rfl <;> decide
    have c5 : b ^^^ 0x20 ≠ 0x7c := by rcases hcases with rfl | rfl | rfl | rfl <;> decide
    have c6 : b ^^^ 0x20 ≠ 0x7d := by rcases hcases with rfl | rfl | rfl | rfl <;> decide
    have hxor : (b ^^^ 0x20) ^^^ 0x20 = b := by
      rcases hcases with rfl | rfl | rfl | rfl <;> decide
    have h2 := push_step env (b ^^^ 0x20) c1 c2 c3 c4 c5 c6 h1
    simpa [hxor] using h2
  · rw [encodeByte, if_neg hctrl]
    have hA : b ≠ 0x7a := by rintro rfl; exact hctrl (by decide)
    have hB : b ≠ 0x7b := by rintro rfl; exact hctrl (by decide)
    have hC : b ≠ 0x7c := by rintro rfl; exact hctrl (by decide)
    have hD : b ≠ 0x7d := by rintro rfl; exact hctrl (by decide)
    have h2 := push_step env b h3a h3d hA hB hC hD h
    simpa using h2

lemma run_encodeByte_eop (env : Env) {s : SerState} {ch : Nat} {acc : List Nat}
    {done : List (Nat × List Nat)} (b : Nat)
    (hb : b < 256) (h3a : b ≠ 0x3a) (h3d : b ≠ 0x3d)
    (h : DeframeInv s ch acc done false true) :
    (recvBytes env s (encodeByte b)).completed =
      done ++ [(ch, (acc ++ [b]).map (· % 256))] := by
  by_cases hctrl : isCtrl b = true
  · have hcases : b = 0x7a ∨ b = 0x7b ∨ b = 0x7c ∨ b = 0x7d := by
      simpa [isCtrl] using hctrl
    rw [encodeByte, if_pos hctrl]
    have h1 := esc_step env h
    have c1 : b ^^^ 0x20 ≠ 0x3a := by rcases hcases with rfl | rfl | rfl | rfl <;> decide
    have c2 : b ^^^ 0x20 ≠ 0x3d := by rcases hcases with rfl | rfl | rfl | rfl <;> decide
    have c3 : b ^^^ 0x20 ≠ 0x7a := by rcases hcases with rfl | rfl | rfl | rfl <;> decide
    have c4 : b ^^^ 0x20 ≠ 0x7b := by rcases hcases with rfl | rfl | rfl | rfl <;> decide
    have c5 : b ^^^ 0x20 ≠ 0x7c := by rcases hcases with rfl | rfl | rfl | rfl <;> decide
    have c6 : b ^^^ 0x20 ≠ 0x7d := by rcases hcases with rfl | rfl | rfl | rfl <;> decide
    have hxor : (b ^^^ 0x20) ^^^ 0x20 = b := by
      rcases hcases with rfl | rfl | rfl | rfl <;> decide
    have h2 := complete_step env (b ^^^ 0x20) c1 c2 c3 c4 c5 c6 h1
    simpa [hxor] using h2
  · rw [encodeByte, if_neg hctrl]
    have hA : b ≠ 0x7a := by rintro rfl; exact hctrl (by decide)
    have hB : b ≠ 0x7b := by rintro rfl; exact hctrl (by decide)
    have hC : b ≠ 0x7c := by rintro rfl; exact hctrl (by decide)
    have hD : b ≠ 0x7d := by rintro rfl; exact hctrl (by decide)
    have h2 := complete_step env b h3a h3d hA hB hC hD h
    simpa using h2

lemma run_encodeBody (env : Env) (ch : Nat) :
    ∀ (data : List Nat) (s : SerState) (acc : List Nat)
      (done : List (Nat × List Nat)),
      data ≠ [] → (∀ b ∈ data, b < 256 ∧ b ≠ 0x3a ∧ b ≠ 0x3d) →
      DeframeInv s ch acc done false false →
      (recvBytes env s (encodeBody data)).completed =
        done ++ [(ch, (acc ++ data).map (· % 256))] := by
  intro data
  induction data with
  | nil => intro s acc done hne; exact absurd rfl hne
  | cons b rest ih =>
    intro s acc done hne hok h
    have hb := hok b (List.mem_cons_self _ _)
    cases rest with
    | nil =>
      simp only [encodeBody]
      rw [Nat.mod_eq_of_lt hb.1]
      exact run_encodeByte_eop env b hb.1 hb.2.1 hb.2.2 (eop_step env h)
    | cons b2 rest2 =>
      simp only [encodeBody]
      rw [Nat.mod_eq_of_lt hb.1]
      rw [recvBytes, List.foldl_append]
      have h1 := run_encodeByte env b hb.1 hb.2.1 hb.2.2 h
      have h2 := ih (recvBytes env s (encodeByte b)) (acc ++ [b]) done (by simp)
        (fun x hx => hok x (List.mem_cons_of_mem _ hx)) h1
      rw [show ((acc ++ [b]) ++ b2 :: rest2) = acc ++ b :: b2 :: rest2 by simp] at h2
      exact h2

/-- C7 (amended): framing a nonempty payload of bytes below 256, none
of which is 0x3a or 0x3d, on a channel below 256 other than 0x3a, and
feeding the encoded bytes to the deframer, reproduces exactly the
original payload on the original channel (bytes colliding with the
packet control values 0x7a..0x7d included). -/
theorem c7_amended_roundtrip (env : Env) (ch : Nat) (data : List Nat)
    (hch : ch < 256) (hch3a : ch ≠ 0x3a) (hne : data ≠ [])
    (hd : ∀ b ∈ data, b < 256 ∧ b ≠ 0x3a ∧ b ≠ 0x3d) :
    (recvBytes env initState (sendPacketBytes ch data)).completed = [(ch, data)] := by
  have hmap : data.map (· % 256) = data := map_mod256 data (fun b hb => (hd b hb).1)
  rw [sendPacketBytes, Nat.mod_eq_of_lt hch]
  have e1 : recvByte env initState 0x7c =
      { initState with receiver := some Receiver.channel, decoded := [0x7c] } := rfl
  have e2 : recvByte env
      { initState with receiver := some Receiver.channel, decoded := [0x7c] } ch =
      { initState with receiver := none, channel := ch, decoded := [0x7c] } := by
    simp only [recvByte]
    rw [if_neg hch3a]
    rfl
  have e3 : recvByte env
      { initState with receiver := none, channel := ch, decoded := [0x7c] } 0x7a =
      { initState with
          receiver := some Receiver.packet,
          channel := ch,
          decoded := [0x7c, 0x7a],
          packets := Function.update (fun _ => none) ch (some (PacketBuf.mk [] false)) } := rfl
  have h3 : DeframeInv
      (recvByte env (recvByte env (recvByte env initState 0x7c) ch) 0x7a)
      ch [] [] false false := by
    rw [e1, e2, e3]
    exact ⟨rfl, rfl, rfl, rfl, rfl, by simp, rfl⟩
  have final := run_encodeBody env ch data _ [] [] hne hd h3
  simpa [hmap] using final

/-- C7 counterexample: the framer does not re-escape the outer 0x3a
command prefix, so the round trip fails for payload [0x3a]: no packet
is ever completed. -/
theorem c7_roundtrip_fails_on_command_prefix :
    (recvBytes env0 initState (sendPacketBytes 0 [0x3a])).completed = [] ∧
    (recvBytes env0 initState (sendPacketBytes 0 [0x3a])).completed ≠ [(0, [0x3a])] := by
  decide

/-- C7 witness: a concrete round trip carrying all four packet control
values. -/
theorem c7_amended_roundtrip_witness :
    (recvBytes env0 initState
        (sendPacketBytes 3 [0x7a, 0x7b, 0x7c, 0x7d, 0x00, 0x42])).completed =
      [(3, [0x7a, 0x7b, 0x7c, 0x7d, 0x00, 0x42])] :=
  c7_amended_roundtrip env0 3 _ (by decide) (by decide) (by decide) (by decide)

end Hostbridge
namespace Hostbridge

/-- C4 witness: concrete instance of the amended claim at a command
byte 0x81 followed by 0x05. -/
theorem c4_amended_command_reverts_to_deframer_witness :
    (recvByte env0 { initState with receiver := some Receiver.command } 0x81).receiver
        = none ∧
    recvByte env0
        (recvByte env0 { initState with receiver := some Receiver.command } 0x81) 0x05 =
      recvPacketB env0
        { recvByte env0 { initState with receiver := some Receiver.command } 0x81 with
            receiver := some Receiver.packet } 0x05 :=
  c4_amended_command_reverts_to_deframer env0
    { initState with receiver := some Receiver.command } 0x81 0x05
    rfl rfl (by decide) (by decide)

/-- C5 witness: the pair (0x3d, 0x1a) delivers the command-prefix value
0x3a as decoded packet data. -/
theorem c5_amended_escape_decodes_witness :
    (recvBytes env0 initState [0x3d, 0x1a]).decoded =
      initState.decoded ++ [0x1a ^^^ 0x20] :=
  c5_amended_escape_decodes env0 initState 0x1a rfl (Or.inl rfl) rfl
    (by decide) (by decide)

/-- State at the address-latch slot of an EEPROM write (counter 16,
address byte 0xFF just shifted in). -/
def c6s1 : SerState :=
  { initState with i2cState := 16, i2cWrite := true, i2cByte := 0xFF,
                   lastCommand := 0x31 }

/-- State at the final fall of a sequential read byte with the cursor
at 255. -/
def c6s2 : SerState :=
  { initState with i2cState := 16, i2cWrite := false, eepAddr := 255,
                   lastCommand := 0x31 }

/-- State in the middle of a read byte with the cursor already past the
image. -/
def c6s3 : SerState :=
  { initState with i2cState := 9, i2cWrite := false, eepAddr := 256,
                   lastCommand := 0x31 }

set_option maxRecDepth 10000 in
/-- C6 witness: concrete latch, unwrapped increment and out-of-range
read instances. -/
theorem c6_amended_cursor_latch_no_wrap_witness :
    ((recvCommandB c6s1 0x21).eepAddr = c6s1.i2cByte ∧
      (recvCommandB c6s1 0x21).eepAddr < 256) ∧
    (recvCommandB c6s2 0x21).eepAddr = c6s2.eepAddr + 1 ∧
    (recvCommandB c6s3 0x21).i2cDrive = 0x10 :=
  ⟨c6_amended_cursor_latch_no_wrap.1 c6s1 0x21 (by decide) (by decide)
      (by decide) (by decide) rfl rfl (by decide),
   c6_amended_cursor_latch_no_wrap.2.1 c6s2 0x21 (by decide) (by decide)
      (by decide) (by decide) rfl (by decide) (by decide),
   c6_amended_cursor_latch_no_wrap.2.2 c6s3 0x21 (by decide) (by decide)
      (by decide) (by decide) rfl (by decide) (by decide) (by decide)⟩

/-- State at the address ACK slot with the matching address byte 0xA1
(slave 0b1010000, read). -/
def c8s1 : SerState :=
  { initState with i2cState := 7, i2cByte := 0xA1, lastCommand := 0x31 }

/-- State at the address ACK slot with a non-matching address byte. -/
def c8s2 : SerState :=
  { initState with i2cState := 7, i2cByte := 0x55, lastCommand := 0x31 }

/-- C8 witness: both ACK slot outcomes at concrete shift registers. -/
theorem c8_address_ack_slot_witness :
    ((recvCommandB c8s1 0x21).i2cDrive = 0x10 ∧
      ((recvCommandB c8s1 0x21).i2cWrite = true ↔ c8s1.i2cByte &&& 1 = 0) ∧
      (recvCommandB c8s1 0x21).i2cState = 8) ∧
    ((recvCommandB c8s2 0x21).i2cDrive = 0x30 ∧
      (recvCommandB c8s2 0x21).i2cState = -2 ∧
      ((recvCommandB c8s2 0x21).i2cWrite = true ↔ c8s2.i2cByte &&& 1 = 0)) ∧
    (recvCommandB c8s1 0x21).fatal = c8s1.fatal :=
  ⟨(c8_address_ack_slot c8s1 0x21 (by decide) (by decide) (by decide)
      (by decide) rfl).2.1 (by decide),
   (c8_address_ack_slot c8s2 0x21 (by decide) (by decide) (by decide)
      (by decide) rfl).2.2 (by decide),
   (c8_address_ack_slot c8s1 0x21 (by decide) (by decide) (by decide)
      (by decide) rfl).1⟩

/-- State at the ACK slot of the first data byte after the address byte
of an EEPROM write (counter 25, so the slot counter is 26). -/
def c9s : SerState :=
  { initState with i2cState := 25, i2cWrite := true, lastCommand := 0x31 }

/-- C9 witness: a concrete serial exchange preserves the image, and a
concrete write-protected data-group ACK stores nothing. -/
theorem c9_eeprom_immutable_witness :
    (recvBytes env0 initState [0x3a, 0x81, 0x05]).eepData = initState.eepData ∧
    ((recvCommandB c9s 0x21).i2cDrive = 0x10 ∧
      (recvCommandB c9s 0x21).eepAddr = c9s.eepAddr ∧
      (recvCommandB c9s 0x21).eepData = c9s.eepData) :=
  ⟨c9_eeprom_immutable.1 env0 initState [0x3a, 0x81, 0x05],
   c9_eeprom_immutable.2 c9s 0x21 (by decide) (by decide) (by decide)
      (by decide) rfl (by decide) (by decide)⟩

end Hostbridge
